import Mathlib

/-!
# Verification of the needle dependency-injection resolution engine

The repository ships `src/main/contracts/contracts.ts`, the contract surface of a
hierarchical dependency-injection container (injector hierarchy, instance cache,
token cache, metrics, resolution engine).  The file below gives a shallow
embedding of that data model and of the resolution algorithm, and proves the
specified behavioural properties about it.

The implementation behind the contracts (the injector class, the caches, the
metrics provider) is not part of the source tree, so every operational
definition below is modelled from the specification of the resolution engine,
staying faithful to its wording; the type-shaped parts (configuration, tokens,
metric records, error kinds) follow `contracts.ts` directly.
-/

namespace Needle

/-- Constructable types are opaque identities compared by reference
(`contracts.ts` `Newable`); we model the identity as a natural number. -/
abbrev CType := Nat

/-- Injection tokens are strings or symbols (`StringOrSymbol`); both are opaque
keys, modelled as strings. -/
abbrev Token := String

/-- Injector identifiers (`InjectorIdentifier`), modelled as naturals. -/
abbrev NodeId := Nat

/-- `InjectionType` from `contracts.ts` restricted to the values that drive the
caching policy of the resolution engine: `singleton` instances are cached per
injector node, `multiple` instances are always freshly constructed. -/
inductive InjType where
  | singleton
  | multiple
deriving DecidableEq, Repr

/-- Run-time values produced by resolution.  A constructed instance carries a
unique identity (standing for reference equality) together with the type it was
constructed from and the argument list handed to the constructor.  Factory and
lazy bindings produce deferred handles, optional misses produce `undef`
(JavaScript `undefined`), strategy bindings produce an array of instances. -/
inductive Value where
  | inst (id : Nat) (type : CType) (args : List Value)
  | undef
  | factoryHandle (target : CType)
  | lazyHandle (target : CType)
  | strategyArr (vals : List Value)
deriving Repr

/-- The binding kind recorded for one constructor parameter slot: the payload
of the parameter injection tokens of `contracts.ts`
(`IParameterInjectionToken`, `IFactoryParameterInjectionToken`,
`ILazyParameterInjectionToken`). -/
inductive Binding where
  | inject (token : Token)
  | factory (target : CType)
  | lazy (target : CType)
  | optional
  | strategy (key : Token)
deriving DecidableEq, Repr

/-- A parameter injection token: owner type, parameter index and binding kind
(`IParameterInjectionToken` and its factory/lazy extensions). -/
structure ParamToken where
  owner : CType
  index : Nat
  binding : Binding
deriving DecidableEq, Repr

/-- A type-level injection token (`IInjectionToken`): a token, the owner type
registered against it and the injection type it was registered with. -/
structure TypeToken where
  token : Token
  owner : CType
  injectionType : InjType
deriving DecidableEq, Repr

/-- `IInjectionConfiguration` from `contracts.ts` (tokens and strategy key),
extended with the injection type of the registration.
Modelled from the spec: the singleton/multiple declaration a type is
"registered with" (carried by `IInjectionToken.injectionType` in
`contracts.ts`) is recorded as part of the registration configuration. -/
structure InjectionConfiguration where
  tokens : List Token
  strategy : Option Token
  injectionType : InjType
deriving DecidableEq, Repr

/-- `IConfiguration` from `contracts.ts`.  The optional
`externalResolutionStrategy` carries an arbitrary resolver function and is not
modelled; no verified property depends on it. -/
structure Configuration where
  maxTreeDepth : Nat
  allowDuplicateTokens : Bool
  trackMetrics : Bool
deriving DecidableEq, Repr

/-- `IMetricRecord` from `contracts.ts`.  Timestamps are drawn from a logical
clock (a natural number that advances on every metrics update). -/
structure MetricRecord where
  type : CType
  activated : Nat
  activationTypeOwner : CType
  resolutionCount : Nat
  lastResolution : Nat
  dependencyCount : Nat
  creationTimeMs : Nat
deriving DecidableEq, Repr

/-- The process-scoped token cache (`ITokenCache`): type-level token
registrations, parameter bindings and strategy contributors, each kept in
insertion order. -/
structure TokenCache where
  typeTokens : List TypeToken
  paramTokens : List ParamToken
  strategyTypes : List (Token × CType)
deriving DecidableEq, Repr

/-- An injector node: identity, optional name, parent back-reference, owned
children, per-node registration table, per-node instance cache, per-node
metric records, destroyed flag and configuration. -/
structure Node where
  id : NodeId
  name : Option String
  parent : Option NodeId
  children : List NodeId
  registrations : List (CType × InjectionConfiguration)
  instanceCache : List (CType × Value)
  metrics : List MetricRecord
  destroyed : Bool
  config : Configuration
deriving Repr

/-- The whole system state: the constructor-parameter declarations of every
constructable type (the metadata the decorator layer extracts), the
process-scoped token cache, the injector tree, the fresh-instance counter
standing for object identity, the fresh-node counter and the logical clock. -/
structure Sys where
  typeUniverse : List (CType × List CType)
  tokenCache : TokenCache
  nodes : List Node
  nextInstanceId : Nat
  nextNodeId : Nat
  clock : Nat
deriving Repr

/-- The error kinds of the resolution engine, as enumerated by the spec's
error-handling design. -/
inductive DIError where
  | lifecycle
  | depthExceeded
  | circularDependency (path : List CType)
  | unregisteredToken (token : Token)
  | missingRegistration (type : CType)
  | duplicateToken (token : Token)
deriving DecidableEq, Repr

/-- The argument of `get`: either a constructable type or a token. -/
inductive TypeOrToken where
  | ctype (t : CType)
  | tok (tk : Token)
deriving DecidableEq, Repr

/-- Look up a node of the injector tree by identifier. -/
def getNode (s : Sys) (nid : NodeId) : Option Node :=
  s.nodes.find? (fun n => n.id == nid)

/-- Replace the node carrying `n.id` by `n`. -/
def setNode (s : Sys) (n : Node) : Sys :=
  { s with nodes := s.nodes.map (fun m => if m.id == n.id then n else m) }

/-- Declared constructor parameter types of a type, from the metadata table. -/
def lookupParams (u : List (CType × List CType)) (t : CType) : Option (List CType) :=
  (u.find? (fun p => p.1 == t)).map (fun p => p.2)

/-- Constructor parameter types of `t` in state `s`; `none` when `t` is not a
known constructable type. -/
def paramsOf (s : Sys) (t : CType) : Option (List CType) :=
  lookupParams s.typeUniverse t

/-- Walk the registration tables from `nid` up the parent chain looking for the
injection configuration of `t` (the parent-delegation rule for binding
metadata).  The fuel bounds the walk; it is instantiated with the node count. -/
def lookupRegAux (s : Sys) : Nat → NodeId → CType → Option InjectionConfiguration
  | 0, _, _ => none
  | fuel + 1, nid, t =>
    match getNode s nid with
    | none => none
    | some node =>
      match node.registrations.find? (fun r => r.1 == t) with
      | some r => some r.2
      | none =>
        match node.parent with
        | some p => lookupRegAux s fuel p t
        | none => none

/-- Registration-table lookup with parent fallback. -/
def lookupReg (s : Sys) (nid : NodeId) (t : CType) : Option InjectionConfiguration :=
  lookupRegAux s (s.nodes.length + 1) nid t

/-- Whether `t` is declared as non-singleton ("multiple") at `nid` or an
ancestor. -/
def isMultiple (s : Sys) (nid : NodeId) (t : CType) : Bool :=
  match lookupReg s nid t with
  | some cfg => cfg.injectionType == InjType.multiple
  | none => false

/-- `ITokenCache.getTypesForToken`: all types registered against a token, in
registration (insertion) order. -/
def TokenCache.getTypesForToken (tc : TokenCache) (tok : Token) : List CType :=
  (tc.typeTokens.filter (fun r => r.token == tok)).map (fun r => r.owner)

/-- `ITokenCache.getTypeForToken`: the type associated to a token; when many
are registered, the last one registered. -/
def TokenCache.getTypeForToken (tc : TokenCache) (tok : Token) : Option CType :=
  (tc.getTypesForToken tok).getLast?

/-- The binding recorded for a constructor parameter slot; the last
registration for a slot overwrites prior ones. -/
def TokenCache.bindingFor (tc : TokenCache) (owner : CType) (index : Nat) : Option Binding :=
  ((tc.paramTokens.filter (fun p => p.owner == owner && p.index == index)).map
    (fun p => p.binding)).getLast?

/-- All types contributing to a named strategy group, in registration order. -/
def TokenCache.strategyContributors (tc : TokenCache) (key : Token) : List CType :=
  (tc.strategyTypes.filter (fun p => p.1 == key)).map (fun p => p.2)

/-- `ICache.resolve`: the cached instance of `t` in a node's instance cache. -/
def cacheResolve (node : Node) (t : CType) : Option Value :=
  (node.instanceCache.find? (fun p => p.1 == t)).map (fun p => p.2)

/-- `ICache.update`: insert or overwrite the cached instance of `t` in the
instance cache owned by node `nid`. -/
def cacheWrite (s : Sys) (nid : NodeId) (t : CType) (v : Value) : Sys :=
  match getNode s nid with
  | none => s
  | some node =>
    setNode s
      { node with
        instanceCache := node.instanceCache.filter (fun p => !(p.1 == t)) ++ [(t, v)] }

/-- Constructor arity of `t`, used as the dependency count of metric records. -/
def depCount (s : Sys) (t : CType) : Nat :=
  match paramsOf s t with
  | some ps => ps.length
  | none => 0

/-- Modelled from the spec: `IMetricsProvider.update` on the record list.  On
first call for a type it creates a record with `resolutionCount = 1`,
`activated = now`, `activationTypeOwner = owner`; subsequent calls increment
`resolutionCount`, refresh `lastResolution` and overwrite `creationTimeMs`. -/
def updateRecord (records : List MetricRecord) (t : CType) (owner : CType) (cost : Nat)
    (now : Nat) (deps : Nat) : List MetricRecord :=
  if records.any (fun r => r.type == t) then
    records.map (fun r =>
      if r.type == t then
        { r with
          resolutionCount := r.resolutionCount + 1
          lastResolution := now
          creationTimeMs := cost }
      else r)
  else
    records ++
      [{ type := t, activated := now, activationTypeOwner := owner,
         resolutionCount := 1, lastResolution := now, dependencyCount := deps,
         creationTimeMs := cost }]

/-- Modelled from the spec: the metrics update as performed by the injector
node `nid`.  A no-op whenever the owning injector's configuration has metrics
tracking off; otherwise it rewrites the node's record list and advances the
logical clock. -/
def metricsUpdate (s : Sys) (nid : NodeId) (t : CType) (owner : CType) (cost : Nat) : Sys :=
  match getNode s nid with
  | none => s
  | some node =>
    if node.config.trackMetrics then
      { setNode s
          { node with
            metrics := updateRecord node.metrics t owner cost s.clock (depCount s t) } with
        clock := s.clock + 1 }
    else s

/-- `IMetrics.getMetricsForType`: the metric record of `t` at node `nid`. -/
def getMetricsForType (s : Sys) (nid : NodeId) (t : CType) : Option MetricRecord :=
  match getNode s nid with
  | none => none
  | some node => node.metrics.find? (fun r => r.type == t)

/-- The metrics owner of a resolution: the first ancestry entry, or the type
itself for a bare resolution. -/
def ownerOf (ancestry : List CType) (t : CType) : CType :=
  ancestry.headD t

/-- `IInjector.isDestroyed`. -/
def isDestroyed (s : Sys) (nid : NodeId) : Bool :=
  match getNode s nid with
  | none => true
  | some node => node.destroyed

mutual

/-- Modelled from the spec: the resolution algorithm for `get(type)` of the
resolution engine (the injector implementation is absent from the source
tree).  Steps, in order: lifecycle check on the owning injector, depth guard
(`ancestry.length` meets or exceeds `maxTreeDepth`), circular-dependency check
(the requested type already appears in the ancestry, the error names the cycle
path), local instance-cache lookup (a hit updates metrics and returns without
reconstructing), constructor-parameter resolution, construction of the
instance, instance-cache write unless the type is declared "multiple", metrics
update with the owner (first ancestry entry, or self) and the construction
cost.  The fuel argument only drives termination: the public entry points pass
`maxTreeDepth + 1`, and the depth guard fires strictly before the fuel can run
out, so the fuel-exhaustion branch is unreachable from them. -/
def getTypeF : Nat → Sys → NodeId → CType → List CType → List (Option Value) →
    Except DIError (Value × Sys)
  | 0, _, _, _, _, _ => .error .depthExceeded
  | fuel + 1, s, nid, t, ancestry, opts =>
    match getNode s nid with
    | none => .error .lifecycle
    | some node =>
      if node.destroyed then .error .lifecycle
      else if node.config.maxTreeDepth ≤ ancestry.length then .error .depthExceeded
      else if t ∈ ancestry then .error (.circularDependency (ancestry ++ [t]))
      else
        match cacheResolve node t with
        | some v => .ok (v, metricsUpdate s nid t (ownerOf ancestry t) 0)
        | none =>
          match paramsOf s t with
          | none => .error (.missingRegistration t)
          | some ps =>
            match resolveParams fuel s nid t ancestry opts ps 0 with
            | .error e => .error e
            | .ok (args, s1) =>
              let v := Value.inst s1.nextInstanceId t args
              let s2 : Sys := { s1 with nextInstanceId := s1.nextInstanceId + 1 }
              let s3 := if isMultiple s2 nid t then s2 else cacheWrite s2 nid t v
              .ok (v, metricsUpdate s3 nid t (ownerOf ancestry t) 0)
termination_by fuel _ _ _ _ _ => (fuel, 0, 0)

/-- Modelled from the spec: resolve a concrete argument for every constructor
parameter slot in order, threading the system state. -/
def resolveParams : Nat → Sys → NodeId → CType → List CType → List (Option Value) →
    List CType → Nat → Except DIError (List Value × Sys)
  | _, s, _, _, _, _, [], _ => .ok ([], s)
  | fuel, s, nid, t, ancestry, opts, p :: ps, i =>
    match resolveParam fuel s nid t ancestry opts p i with
    | .error e => .error e
    | .ok (v, s1) =>
      match resolveParams fuel s1 nid t ancestry opts ps (i + 1) with
      | .error e => .error e
      | .ok (vs, s2) => .ok (v :: vs, s2)
termination_by fuel _ _ _ _ _ ps _ => (fuel, ps.length + 2, 0)

/-- Modelled from the spec: resolve one constructor parameter slot.  An
explicit value supplied through `options.params` wins over every
binding-derived resolution.  Otherwise the recorded binding decides: a token
binding resolves the type currently mapped to the token (failing with an
unregistered-token error when none is), a factory or lazy binding returns a
deferred handle, an optional binding substitutes `undefined` when the target
type has no registration at this node or an ancestor, a strategy binding
collects the full contributor array, and a slot with no recorded binding falls
back to bare resolution of the parameter's declared type. -/
def resolveParam : Nat → Sys → NodeId → CType → List CType → List (Option Value) →
    CType → Nat → Except DIError (Value × Sys)
  | fuel, s, nid, t, ancestry, opts, p, i =>
    match opts.getD i none with
    | some v => .ok (v, s)
    | none =>
      match TokenCache.bindingFor s.tokenCache t i with
      | some (.inject tk) =>
        match TokenCache.getTypeForToken s.tokenCache tk with
        | none => .error (.unregisteredToken tk)
        | some u => getTypeF fuel s nid u (ancestry ++ [t]) []
      | some (.factory target) => .ok (.factoryHandle target, s)
      | some (.lazy target) => .ok (.lazyHandle target, s)
      | some .optional =>
        if (lookupReg s nid p).isSome then getTypeF fuel s nid p (ancestry ++ [t]) []
        else .ok (.undef, s)
      | some (.strategy key) =>
        match getStrategiesF fuel s nid (ancestry ++ [t])
            (TokenCache.strategyContributors s.tokenCache key) with
        | .error e => .error e
        | .ok (vs, s1) => .ok (.strategyArr vs, s1)
      | none => getTypeF fuel s nid p (ancestry ++ [t]) []
termination_by fuel _ _ _ _ _ _ _ => (fuel, 1, 0)

/-- Modelled from the spec: construct every strategy contributor in
registration order. -/
def getStrategiesF : Nat → Sys → NodeId → List CType → List CType →
    Except DIError (List Value × Sys)
  | _, s, _, _, [] => .ok ([], s)
  | fuel, s, nid, ancestry, u :: us =>
    match getTypeF fuel s nid u ancestry [] with
    | .error e => .error e
    | .ok (v, s1) =>
      match getStrategiesF fuel s1 nid ancestry us with
      | .error e => .error e
      | .ok (vs, s2) => .ok (v :: vs, s2)
termination_by fuel _ _ _ us => (fuel, 0, us.length + 1)

end

/-- Modelled from the spec: `IInjector.get`.  A destroyed injector fails with
a lifecycle error; a token argument is first resolved to the type currently
mapped to it (failing with an unregistered-token error when no type is
mapped); the resolution engine is entered with an empty ancestry and enough
fuel that the depth guard always fires first. -/
def get (s : Sys) (nid : NodeId) (x : TypeOrToken) (opts : List (Option Value)) :
    Except DIError (Value × Sys) :=
  match getNode s nid with
  | none => .error .lifecycle
  | some node =>
    if node.destroyed then .error .lifecycle
    else
      match x with
      | .ctype t => getTypeF (node.config.maxTreeDepth + 1) s nid t [] opts
      | .tok tk =>
        match TokenCache.getTypeForToken s.tokenCache tk with
        | none => .error (.unregisteredToken tk)
        | some t => getTypeF (node.config.maxTreeDepth + 1) s nid t [] opts

/-- Modelled from the spec: `IInjector.getOptional`.  Returns the resolved
instance, or `none` (for `undefined`) instead of raising when the type has no
registration at this node or an ancestor. -/
def getOptional (s : Sys) (nid : NodeId) (t : CType) : Except DIError (Option Value × Sys) :=
  match getNode s nid with
  | none => .error .lifecycle
  | some node =>
    if node.destroyed then .error .lifecycle
    else if (lookupReg s nid t).isSome then
      match getTypeF (node.config.maxTreeDepth + 1) s nid t [] [] with
      | .error e => .error e
      | .ok (v, s1) => .ok (some v, s1)
    else .ok (none, s)

/-- The first token of `cfg.tokens` that is already registered against a
different owner type, if any (the duplicate-token collision). -/
def dupToken (s : Sys) (t : CType) (cfg : InjectionConfiguration) : Option Token :=
  cfg.tokens.find? (fun tk =>
    s.tokenCache.typeTokens.any (fun r => r.token == tk && !(r.owner == t)))

/-- Record a type's injection configuration in a registration table:
re-registration of an already-registered type updates its configuration in
place, a new type is appended. -/
def regUpdate (regs : List (CType × InjectionConfiguration)) (t : CType)
    (cfg : InjectionConfiguration) : List (CType × InjectionConfiguration) :=
  if regs.any (fun r => r.1 == t) then
    regs.map (fun r => if r.1 == t then (t, cfg) else r)
  else regs ++ [(t, cfg)]

/-- Modelled from the spec: the bookkeeping shared by every successful
registration: record (or update, on re-registration of the same type) the
injection configuration in the node's registration table, and append the
configuration's tokens and strategy key to the process-scoped token cache. -/
def registerCore (s : Sys) (node : Node) (t : CType) (cfg : InjectionConfiguration) : Sys :=
  let node1 := { node with registrations := regUpdate node.registrations t cfg }
  let s1 := setNode s node1
  let tc := s1.tokenCache
  let tc1 :=
    { tc with
      typeTokens :=
        tc.typeTokens ++ cfg.tokens.map (fun tk => TypeToken.mk tk t cfg.injectionType) }
  let tc2 :=
    match cfg.strategy with
    | some k => { tc1 with strategyTypes := tc1.strategyTypes ++ [(k, t)] }
    | none => tc1
  { s1 with tokenCache := tc2 }

/-- Modelled from the spec: `IInjector.register`.  Fails with a lifecycle
error on a destroyed node; re-registration of the same type updates its
configuration; registering a token already owned by a different type fails
with a duplicate-token error unless `allowDuplicateTokens` is set.  Returns
the receiver for fluent chaining. -/
def register (s : Sys) (nid : NodeId) (t : CType) (cfg : InjectionConfiguration) :
    Except DIError (Sys × NodeId) :=
  match getNode s nid with
  | none => .error .lifecycle
  | some node =>
    if node.destroyed then .error .lifecycle
    else
      match dupToken s t cfg with
      | some tk =>
        if node.config.allowDuplicateTokens then .ok (registerCore s node t cfg, nid)
        else .error (.duplicateToken tk)
      | none => .ok (registerCore s node t cfg, nid)

/-- Modelled from the spec: `IInjector.registerInstance` seeds the instance
cache directly while still running through registration bookkeeping.  Returns
the receiver. -/
def registerInstance (s : Sys) (nid : NodeId) (t : CType) (v : Value)
    (cfg : InjectionConfiguration) : Except DIError (Sys × NodeId) :=
  match register s nid t cfg with
  | .error e => .error e
  | .ok (s1, _) => .ok (cacheWrite s1 nid t v, nid)

/-- Modelled from the spec: the shared body of the parameter-registration
operations: record a parameter binding in the process-scoped token cache.
Returns the receiver. -/
def registerParam (s : Sys) (nid : NodeId) (owner : CType) (index : Nat) (b : Binding) :
    Except DIError (Sys × NodeId) :=
  match getNode s nid with
  | none => .error .lifecycle
  | some node =>
    if node.destroyed then .error .lifecycle
    else
      let tc := s.tokenCache
      .ok ({ s with tokenCache := { tc with paramTokens := tc.paramTokens ++ [ParamToken.mk owner index b] } },
        nid)

/-- `IInjector.registerParamForFactoryInjection`. -/
def registerParamForFactoryInjection (s : Sys) (nid : NodeId) (target : CType)
    (owner : CType) (index : Nat) : Except DIError (Sys × NodeId) :=
  registerParam s nid owner index (.factory target)

/-- `IInjector.registerParamForLazyInjection`. -/
def registerParamForLazyInjection (s : Sys) (nid : NodeId) (target : CType)
    (owner : CType) (index : Nat) : Except DIError (Sys × NodeId) :=
  registerParam s nid owner index (.lazy target)

/-- `IInjector.registerParamForOptionalInjection`. -/
def registerParamForOptionalInjection (s : Sys) (nid : NodeId) (owner : CType)
    (index : Nat) : Except DIError (Sys × NodeId) :=
  registerParam s nid owner index .optional

/-- `IInjector.registerParamForTokenInjection`. -/
def registerParamForTokenInjection (s : Sys) (nid : NodeId) (tk : Token)
    (owner : CType) (index : Nat) : Except DIError (Sys × NodeId) :=
  registerParam s nid owner index (.inject tk)

/-- `IInjector.registerParamForStrategyInjection`. -/
def registerParamForStrategyInjection (s : Sys) (nid : NodeId) (key : Token)
    (owner : CType) (index : Nat) : Except DIError (Sys × NodeId) :=
  registerParam s nid owner index (.strategy key)

/-- Modelled from the spec: `IInjector.createScope` creates a child node that
inherits the parent's configuration, with its own empty registration table,
instance cache and metric store, and registers it in the parent's children. -/
def createScope (s : Sys) (nid : NodeId) (name : Option String) :
    Except DIError (Sys × NodeId) :=
  match getNode s nid with
  | none => .error .lifecycle
  | some node =>
    if node.destroyed then .error .lifecycle
    else
      let cid := s.nextNodeId
      let child : Node :=
        { id := cid, name := name, parent := some nid, children := [],
          registrations := [], instanceCache := [], metrics := [],
          destroyed := false, config := node.config }
      let s1 := setNode s { node with children := node.children ++ [cid] }
      .ok ({ s1 with nodes := s1.nodes ++ [child], nextNodeId := cid + 1 }, cid)

mutual

/-- Modelled from the spec: the recursive teardown performed by
`IInjector.destroy`: destroy all children first, then clear the node's own
caches, registrations and metrics and mark it destroyed. -/
def destroySubtree : Nat → Sys → NodeId → Sys
  | 0, s, _ => s
  | fuel + 1, s, nid =>
    match getNode s nid with
    | none => s
    | some node =>
      let s1 := destroyList fuel s node.children
      match getNode s1 nid with
      | none => s1
      | some node1 =>
        setNode s1
          { node1 with
            children := [], registrations := [], instanceCache := [],
            metrics := [], destroyed := true }
termination_by fuel _ _ => (fuel, 0)

/-- Teardown of a list of sibling subtrees, threading the state. -/
def destroyList : Nat → Sys → List NodeId → Sys
  | _, s, [] => s
  | fuel, s, c :: cs => destroyList fuel (destroySubtree fuel s c) cs
termination_by fuel _ l => (fuel, l.length + 1)

end

/-- Drop `cid` from the children of `pid`. -/
def removeChild (s : Sys) (pid : NodeId) (cid : NodeId) : Sys :=
  match getNode s pid with
  | none => s
  | some p => setNode s { p with children := p.children.filter (fun c => !(c == cid)) }

/-- Modelled from the spec: `IInjector.destroy` fails on an already-destroyed
node, recursively destroys the whole subtree and unlinks the node from its
parent, so that searches from the root no longer reach it. -/
def destroy (s : Sys) (nid : NodeId) : Except DIError Sys :=
  match getNode s nid with
  | none => .error .lifecycle
  | some node =>
    if node.destroyed then .error .lifecycle
    else
      let s1 := destroySubtree (s.nodes.length + 1) s nid
      match node.parent with
      | some p => .ok (removeChild s1 p nid)
      | none => .ok s1

/-- Breadth-first order of the subtree rooted at the queued nodes. -/
def bfsOrder : Nat → Sys → List NodeId → List NodeId
  | 0, _, _ => []
  | _ + 1, _, [] => []
  | fuel + 1, s, n :: queue =>
    match getNode s n with
    | none => bfsOrder fuel s queue
    | some node => n :: bfsOrder fuel s (queue ++ node.children)

/-- The search key of `IInjector.getScope`: in the source a single string is
matched against node identifiers first and names second; identifiers and
names live in different Lean types, so the key records which it denotes. -/
inductive ScopeKey where
  | byId (i : NodeId)
  | byName (nm : String)
deriving DecidableEq, Repr

/-- Whether `n` matches the key as an identifier. -/
def keyMatchesId (k : ScopeKey) (n : NodeId) : Bool :=
  match k with
  | .byId i => i == n
  | .byName _ => false

/-- Whether `n` matches the key by node name. -/
def keyMatchesName (s : Sys) (k : ScopeKey) (n : NodeId) : Bool :=
  match k, getNode s n with
  | .byName nm, some node => node.name == some nm
  | _, _ => false

/-- Modelled from the spec: `IInjector.getScope` performs a breadth-first
search over the subtree rooted at the calling node, matching by identifier
first and by name second. -/
def getScope (s : Sys) (nid : NodeId) (k : ScopeKey) : Option NodeId :=
  let order := bfsOrder ((s.nodes.length + 1) * (s.nodes.length + 1)) s [nid]
  match order.find? (fun n => keyMatchesId k n) with
  | some m => some m
  | none => order.find? (fun n => keyMatchesName s k n)

/-- Modelled from the spec: `IInjector.reset` clears the node's instance
cache, registration table and metrics without destroying it. -/
def reset (s : Sys) (nid : NodeId) : Except DIError Sys :=
  match getNode s nid with
  | none => .error .lifecycle
  | some node =>
    if node.destroyed then .error .lifecycle
    else .ok (setNode s { node with registrations := [], instanceCache := [], metrics := [] })

/-- The root node of a freshly created injector system. -/
def rootNode (cfg : Configuration) : Node :=
  { id := 0, name := none, parent := none, children := [],
    registrations := [], instanceCache := [], metrics := [],
    destroyed := false, config := cfg }

/-- A freshly created injector system: a single live root node with empty
caches, an empty token cache, and the given type metadata and configuration. -/
def freshSys (u : List (CType × List CType)) (cfg : Configuration) : Sys :=
  { typeUniverse := u
    tokenCache := { typeTokens := [], paramTokens := [], strategyTypes := [] }
    nodes := [rootNode cfg]
    nextInstanceId := 0
    nextNodeId := 1
    clock := 0 }

/-- The public operations of the injector contract, reified so that
quantifying over "any subsequent operation" is possible. -/
inductive Op where
  | opRegister (nid : NodeId) (t : CType) (cfg : InjectionConfiguration)
  | opRegisterInstance (nid : NodeId) (t : CType) (v : Value) (cfg : InjectionConfiguration)
  | opRegisterParam (nid : NodeId) (owner : CType) (index : Nat) (b : Binding)
  | opGet (nid : NodeId) (x : TypeOrToken) (opts : List (Option Value))
  | opGetOptional (nid : NodeId) (t : CType)
  | opCreateScope (nid : NodeId) (name : Option String)
  | opDestroy (nid : NodeId)
  | opReset (nid : NodeId)

/-- The system state after one public operation (unchanged when the operation
fails). -/
def afterOp (s : Sys) : Op → Sys
  | .opRegister nid t cfg =>
    match register s nid t cfg with
    | .ok (s1, _) => s1
    | .error _ => s
  | .opRegisterInstance nid t v cfg =>
    match registerInstance s nid t v cfg with
    | .ok (s1, _) => s1
    | .error _ => s
  | .opRegisterParam nid owner index b =>
    match registerParam s nid owner index b with
    | .ok (s1, _) => s1
    | .error _ => s
  | .opGet nid x opts =>
    match get s nid x opts with
    | .ok (_, s1) => s1
    | .error _ => s
  | .opGetOptional nid t =>
    match getOptional s nid t with
    | .ok (_, s1) => s1
    | .error _ => s
  | .opCreateScope nid name =>
    match createScope s nid name with
    | .ok (s1, _) => s1
    | .error _ => s
  | .opDestroy nid =>
    match destroy s nid with
    | .ok s1 => s1
    | .error _ => s
  | .opReset nid =>
    match reset s nid with
    | .ok s1 => s1
    | .error _ => s

/-! ## General lemmas about the state helpers -/

theorem find?_map_set (l : List Node) (m : Node) (n : NodeId) :
    (l.map (fun x => if x.id == m.id then m else x)).find? (fun x => x.id == n) =
      if n = m.id then (l.find? (fun x => x.id == n)).map (fun _ => m)
      else l.find? (fun x => x.id == n) := by
  induction l with
  | nil => by_cases h : n = m.id <;> simp [h]
  | cons x l ih =>
    simp only [List.map_cons]
    by_cases hxm : x.id = m.id
    · rw [if_pos (by simp [hxm])]
      by_cases hxn : x.id = n
      · have hmn : m.id = n := hxm.symm.trans hxn
        rw [List.find?_cons_of_pos _ (by simp [hmn]),
          List.find?_cons_of_pos _ (by simp [hxn]), if_pos hmn.symm]
        simp
      · have hmn : ¬m.id = n := fun h => hxn (hxm.trans h)
        rw [List.find?_cons_of_neg _ (by simp [hmn]),
          List.find?_cons_of_neg _ (by simp [hxn])]
        exact ih
    · rw [if_neg (by simp [hxm])]
      by_cases hxn : x.id = n
      · have hnm : ¬n = m.id := fun h => hxm (hxn.trans h)
        rw [List.find?_cons_of_pos _ (by simp [hxn]), List.find?_cons_of_pos _ (by simp [hxn]),
          if_neg hnm]
      · rw [List.find?_cons_of_neg _ (by simp [hxn]), List.find?_cons_of_neg _ (by simp [hxn])]
        exact ih

theorem getNode_setNode (s : Sys) (m : Node) (n : NodeId) :
    getNode (setNode s m) n =
      if n = m.id then (getNode s n).map (fun _ => m) else getNode s n := by
  unfold getNode setNode
  exact find?_map_set s.nodes m n

theorem getNode_id {s : Sys} {nid : NodeId} {node : Node} (h : getNode s nid = some node) :
    node.id = nid := by
  have := List.find?_some h
  simpa using this

/-! ## Claim C10 -/

/-- C10: every registration operation — `register`, `registerInstance`,
`registerParamForFactoryInjection`, `registerParamForLazyInjection`,
`registerParamForOptionalInjection`, `registerParamForTokenInjection` and
`registerParamForStrategyInjection` — returns the very injector it was invoked
on (the receiver), so registration calls chain fluently. -/
theorem registration_returns_receiver :
    (∀ s nid t cfg s1 n1, register s nid t cfg = .ok (s1, n1) → n1 = nid) ∧
    (∀ s nid t v cfg s1 n1, registerInstance s nid t v cfg = .ok (s1, n1) → n1 = nid) ∧
    (∀ s nid target owner index s1 n1,
      registerParamForFactoryInjection s nid target owner index = .ok (s1, n1) → n1 = nid) ∧
    (∀ s nid target owner index s1 n1,
      registerParamForLazyInjection s nid target owner index = .ok (s1, n1) → n1 = nid) ∧
    (∀ s nid owner index s1 n1,
      registerParamForOptionalInjection s nid owner index = .ok (s1, n1) → n1 = nid) ∧
    (∀ s nid tk owner index s1 n1,
      registerParamForTokenInjection s nid tk owner index = .ok (s1, n1) → n1 = nid) ∧
    (∀ s nid key owner index s1 n1,
      registerParamForStrategyInjection s nid key owner index = .ok (s1, n1) → n1 = nid) := by
  have hp : ∀ s nid owner index b s1 n1,
      registerParam s nid owner index b = .ok (s1, n1) → n1 = nid := by
    intro s nid owner index b s1 n1 h
    unfold registerParam at h
    repeat' split at h
    all_goals cases h
    all_goals rfl
  have hr : ∀ s nid t cfg s1 n1, register s nid t cfg = .ok (s1, n1) → n1 = nid := by
    intro s nid t cfg s1 n1 h
    unfold register at h
    repeat' split at h
    all_goals cases h
    all_goals rfl
  refine ⟨hr, ?_, ?_, ?_, ?_, ?_, ?_⟩
  · intro s nid t v cfg s1 n1 h
    unfold registerInstance at h
    repeat' split at h
    all_goals cases h
    all_goals rfl
  · intro s nid target owner index s1 n1 h
    exact hp _ _ _ _ _ _ _ h
  · intro s nid target owner index s1 n1 h
    exact hp _ _ _ _ _ _ _ h
  · intro s nid owner index s1 n1 h
    exact hp _ _ _ _ _ _ _ h
  · intro s nid tk owner index s1 n1 h
    exact hp _ _ _ _ _ _ _ h
  · intro s nid key owner index s1 n1 h
    exact hp _ _ _ _ _ _ _ h

/-- Witness for C10 at a concrete input: registering type `3` on the root of a
fresh injector returns the root as receiver. -/
theorem registration_returns_receiver_witness : (0 : NodeId) = 0 :=
  registration_returns_receiver.1
    (freshSys [] { maxTreeDepth := 1, allowDuplicateTokens := false, trackMetrics := false })
    0 3 { tokens := [], strategy := none, injectionType := .singleton } _ 0 rfl

/-! ## Claim C5 -/

theorem typeTokens_registerCore (s : Sys) (node : Node) (t : CType)
    (cfg : InjectionConfiguration) :
    (registerCore s node t cfg).tokenCache.typeTokens =
      s.tokenCache.typeTokens ++
        cfg.tokens.map (fun tk => TypeToken.mk tk t cfg.injectionType) := by
  unfold registerCore
  cases hs : cfg.strategy <;> simp [hs, setNode]

theorem register_ok_state {s : Sys} {nid : NodeId} {t : CType}
    {cfg : InjectionConfiguration} {s1 : Sys} {n1 : NodeId}
    (h : register s nid t cfg = .ok (s1, n1)) :
    ∃ node, getNode s nid = some node ∧ s1 = registerCore s node t cfg := by
  unfold register at h
  split at h
  · cases h
  · split at h
    · cases h
    · split at h
      · split at h
        · cases h
          exact ⟨_, by assumption, rfl⟩
        · cases h
      · cases h
        exact ⟨_, by assumption, rfl⟩

/-- C5: `get(token)` resolves via the type most recently registered for the
token (`getTypeForToken` returns the last registered type);
`getTypesForToken` returns all registered types in registration order; and
`get` on a token with no mapped type fails with an unregistered-token error. -/
theorem token_resolution_last_registered :
    (∀ s nid t cfg tok s1 n1, cfg.tokens = [tok] → register s nid t cfg = .ok (s1, n1) →
      TokenCache.getTypeForToken s1.tokenCache tok = some t ∧
      TokenCache.getTypesForToken s1.tokenCache tok =
        TokenCache.getTypesForToken s.tokenCache tok ++ [t]) ∧
    (∀ s nid node tk opts, getNode s nid = some node → node.destroyed = false →
      TokenCache.getTypeForToken s.tokenCache tk = none →
      get s nid (.tok tk) opts = .error (.unregisteredToken tk)) ∧
    (∀ s nid node tk t opts, getNode s nid = some node → node.destroyed = false →
      TokenCache.getTypeForToken s.tokenCache tk = some t →
      get s nid (.tok tk) opts =
        getTypeF (node.config.maxTreeDepth + 1) s nid t [] opts) := by
  refine ⟨?_, ?_, ?_⟩
  · intro s nid t cfg tok s1 n1 htoks h
    obtain ⟨node, -, rfl⟩ := register_ok_state h
    have hlist : TokenCache.getTypesForToken (registerCore s node t cfg).tokenCache tok =
        TokenCache.getTypesForToken s.tokenCache tok ++ [t] := by
      unfold TokenCache.getTypesForToken
      rw [typeTokens_registerCore, htoks]
      simp
    refine ⟨?_, hlist⟩
    unfold TokenCache.getTypeForToken
    rw [hlist]
    simp
  · intro s nid node tk opts h1 h2 h3
    unfold get
    simp [h1, h2, h3]
  · intro s nid node tk t opts h1 h2 h3
    unfold get
    simp [h1, h2, h3]

/-- Witness for C5: registering type `4` against token `"a"` on a fresh root
makes `"a"` resolve to `4`, with the registration list `[4]`. -/
theorem token_resolution_last_registered_witness :
    TokenCache.getTypeForToken
        (match register
            (freshSys [] { maxTreeDepth := 1, allowDuplicateTokens := false, trackMetrics := false })
            0 4 { tokens := ["a"], strategy := none, injectionType := .singleton } with
          | .ok (s1, _) => s1
          | .error _ =>
            freshSys [] { maxTreeDepth := 1, allowDuplicateTokens := false, trackMetrics := false }).tokenCache
        "a" = some 4 :=
  (token_resolution_last_registered.1
    (freshSys [] { maxTreeDepth := 1, allowDuplicateTokens := false, trackMetrics := false })
    0 4 { tokens := ["a"], strategy := none, injectionType := .singleton } "a" _ 0 rfl rfl).1

/-! ## Claim C7 -/

theorem getNode_freshSys (u : List (CType × List CType)) (cfg : Configuration) :
    getNode (freshSys u cfg) 0 = some (rootNode cfg) := rfl

theorem dupToken_none_of_owner (s : Sys) (t : CType) (cfg : InjectionConfiguration)
    (h : ∀ r ∈ s.tokenCache.typeTokens, r.owner = t) : dupToken s t cfg = none := by
  unfold dupToken
  refine List.find?_eq_none.2 ?_
  intro tk _
  simp only [List.any_eq_true, Bool.and_eq_true, not_exists, not_and]
  intro r hr _
  simp [h r hr]

theorem getNode_registerCore (s : Sys) (node : Node) (t : CType)
    (cfg : InjectionConfiguration) (n : NodeId) :
    getNode (registerCore s node t cfg) n =
      if n = node.id then
        (getNode s n).map (fun _ => { node with registrations := regUpdate node.registrations t cfg })
      else getNode s n := by
  unfold registerCore
  cases hs : cfg.strategy
  all_goals
    show getNode { setNode s _ with tokenCache := _ } n = _
    show getNode (setNode s _) n = _
    rw [getNode_setNode]

theorem typeTokens_registerCore' (s : Sys) (node : Node) (t : CType)
    (cfg : InjectionConfiguration) :
    (registerCore s node t cfg).tokenCache.typeTokens =
      s.tokenCache.typeTokens ++
        cfg.tokens.map (fun tk => TypeToken.mk tk t cfg.injectionType) :=
  typeTokens_registerCore s node t cfg

theorem register_fresh (u : List (CType × List CType)) (cfg : Configuration)
    (T : CType) (cfg1 : InjectionConfiguration) :
    register (freshSys u cfg) 0 T cfg1 =
      .ok (registerCore (freshSys u cfg) (rootNode cfg) T cfg1, 0) := by
  unfold register
  rw [getNode_freshSys]
  rw [dupToken_none_of_owner _ T cfg1 (by intro r hr; simp [freshSys] at hr)]
  simp [rootNode]

/-- C7: re-registering the same type is allowed and the later call updates the
injection configuration, while registering a token already owned by a
different type fails with a duplicate-token error when `allowDuplicateTokens`
is false, and is accepted when it is true. -/
theorem duplicate_registration_policy :
    (∀ u cfg T cfg1 cfg2, ∃ s1,
      register (freshSys u cfg) 0 T cfg1 = .ok (s1, 0) ∧
      ∃ s2, register s1 0 T cfg2 = .ok (s2, 0) ∧
        ∃ node2, getNode s2 0 = some node2 ∧ node2.registrations = [(T, cfg2)]) ∧
    (∀ u cfg T1 T2 cfg1 cfg2 tok, cfg.allowDuplicateTokens = false → T1 ≠ T2 →
      cfg1.tokens = [tok] → cfg2.tokens = [tok] →
      ∃ s1, register (freshSys u cfg) 0 T1 cfg1 = .ok (s1, 0) ∧
        register s1 0 T2 cfg2 = .error (.duplicateToken tok)) ∧
    (∀ u cfg T1 T2 cfg1 cfg2 tok, cfg.allowDuplicateTokens = true →
      cfg1.tokens = [tok] → cfg2.tokens = [tok] →
      ∃ s1, register (freshSys u cfg) 0 T1 cfg1 = .ok (s1, 0) ∧
        ∃ s2, register s1 0 T2 cfg2 = .ok (s2, 0)) := by
  have hfresh := register_fresh
  have hnode1 : ∀ u cfg T1 cfg1,
      getNode (registerCore (freshSys u cfg) (rootNode cfg) T1 cfg1) 0 =
        some { rootNode cfg with registrations := [(T1, cfg1)] } := by
    intro u cfg T1 cfg1
    rw [getNode_registerCore]
    simp [rootNode, getNode_freshSys, regUpdate]
  refine ⟨?_, ?_, ?_⟩
  · intro u cfg T cfg1 cfg2
    refine ⟨_, hfresh u cfg T cfg1, ?_⟩
    have howner : ∀ r ∈ (registerCore (freshSys u cfg) (rootNode cfg) T cfg1).tokenCache.typeTokens,
        r.owner = T := by
      rw [typeTokens_registerCore']
      intro r hr
      simp [freshSys, List.mem_map] at hr
      obtain ⟨tk, -, rfl⟩ := hr
      rfl
    have h2 : register (registerCore (freshSys u cfg) (rootNode cfg) T cfg1) 0 T cfg2 =
        .ok (registerCore (registerCore (freshSys u cfg) (rootNode cfg) T cfg1)
          { rootNode cfg with registrations := [(T, cfg1)] } T cfg2, 0) := by
      unfold register
      rw [hnode1, dupToken_none_of_owner _ T cfg2 howner]
      simp [rootNode]
    refine ⟨_, h2, ?_⟩
    rw [getNode_registerCore]
    rw [if_pos (by simp [rootNode]), hnode1]
    exact ⟨_, rfl, by simp [regUpdate]⟩
  · intro u cfg T1 T2 cfg1 cfg2 tok hdup hne h1 h2
    refine ⟨_, hfresh u cfg T1 cfg1, ?_⟩
    have htt : (registerCore (freshSys u cfg) (rootNode cfg) T1 cfg1).tokenCache.typeTokens =
        [TypeToken.mk tok T1 cfg1.injectionType] := by
      rw [typeTokens_registerCore', h1]
      rfl
    have hdt : dupToken (registerCore (freshSys u cfg) (rootNode cfg) T1 cfg1) T2 cfg2 =
        some tok := by
      unfold dupToken
      rw [h2, htt]
      have hbe : (T1 == T2) = false := by simp [hne]
      simp [List.find?, hbe]
    unfold register
    rw [hnode1, hdt]
    simp [rootNode, hdup]
  · intro u cfg T1 T2 cfg1 cfg2 tok hdup h1 h2
    refine ⟨_, hfresh u cfg T1 cfg1, ?_⟩
    unfold register
    rw [hnode1]
    cases hdt : dupToken (registerCore (freshSys u cfg) (rootNode cfg) T1 cfg1) T2 cfg2 <;>
      simp [rootNode, hdup]

/-- Witness for C7: with duplicate tokens disallowed, registering types `1`
and then `2` against the same token `"a"` on a fresh root raises a
duplicate-token error on the second call. -/
theorem duplicate_registration_policy_witness :
    ∃ s1, register
        (freshSys [] { maxTreeDepth := 1, allowDuplicateTokens := false, trackMetrics := false })
        0 1 { tokens := ["a"], strategy := none, injectionType := .singleton } = .ok (s1, 0) ∧
      register s1 0 2 { tokens := ["a"], strategy := none, injectionType := .singleton } =
        .error (.duplicateToken "a") :=
  duplicate_registration_policy.2.1 []
    { maxTreeDepth := 1, allowDuplicateTokens := false, trackMetrics := false } 1 2
    { tokens := ["a"], strategy := none, injectionType := .singleton }
    { tokens := ["a"], strategy := none, injectionType := .singleton } "a" rfl
    (by decide) rfl rfl

/-! ## Claim C4 -/

/-- C4: `getOptional` never raises for a missing registration and returns
`undefined` instead; and a constructor parameter bound as optional whose
target type is unregistered resolves to `undefined`: `get(owner)` succeeds
and the argument passed into that slot is `undefined`. -/
theorem optional_injection_missing_is_undefined :
    (∀ s nid node t, getNode s nid = some node → node.destroyed = false →
      lookupReg s nid t = none → getOptional s nid t = .ok (none, s)) ∧
    (∀ u cfg W P, lookupParams u W = some [P] → 1 ≤ cfg.maxTreeDepth →
      ∃ s1, registerParamForOptionalInjection (freshSys u cfg) 0 W 0 = .ok (s1, 0) ∧
        ∃ s2, get s1 0 (.ctype W) [] = .ok (.inst 0 W [.undef], s2)) := by
  constructor
  · intro s nid node t h1 h2 h3
    unfold getOptional
    simp [h1, h2, h3]
  · intro u cfg W P hU hmax
    refine ⟨_, rfl, ?_⟩
    have hd0 : ¬(cfg.maxTreeDepth ≤ 0) := by omega
    simp only [get, getTypeF, resolveParams, resolveParam, getNode, freshSys, rootNode,
      cacheResolve, paramsOf, TokenCache.bindingFor, lookupReg, lookupRegAux,
      isMultiple, List.getD, hU, hd0]
    simp [getNode, freshSys, rootNode, cacheResolve, paramsOf,
      TokenCache.bindingFor, lookupReg, lookupRegAux, isMultiple, hU, hd0]

/-- Witness for C4: an owner type `7` whose single parameter (declared type
`8`, unregistered) is bound as optional constructs with the argument
`undefined`. -/
theorem optional_injection_missing_is_undefined_witness :
    ∃ s1, registerParamForOptionalInjection
        (freshSys [(7, [8])] { maxTreeDepth := 3, allowDuplicateTokens := false, trackMetrics := false })
        0 7 0 = .ok (s1, 0) ∧
      ∃ s2, get s1 0 (.ctype 7) [] = .ok (.inst 0 7 [.undef], s2) :=
  optional_injection_missing_is_undefined.2 [(7, [8])]
    { maxTreeDepth := 3, allowDuplicateTokens := false, trackMetrics := false } 7 8 rfl
    (by decide)

/-! ## Claim C1 -/

/-- C1: for a type with no constructor dependencies, `get` on a fresh injector
returns a newly constructed instance and a second `get` on the resulting state
returns the identical (reference-equal) instance; when the type is registered
with injection type "multiple", every `get` returns a distinct fresh instance
and the instance cache is never written.  States are chained with `afterOp`,
the state left behind by each public operation. -/
theorem singleton_invariant_and_multiple_bypass :
    ∀ u cfg T, lookupParams u T = some [] → 1 ≤ cfg.maxTreeDepth →
    ((get (freshSys u cfg) 0 (.ctype T) []).map Prod.fst = .ok (.inst 0 T []) ∧
      (get (afterOp (freshSys u cfg) (.opGet 0 (.ctype T) [])) 0 (.ctype T) []).map Prod.fst =
        .ok (.inst 0 T [])) ∧
    (∀ mcfg : InjectionConfiguration, mcfg.injectionType = .multiple →
      register (freshSys u cfg) 0 T mcfg =
        .ok (afterOp (freshSys u cfg) (.opRegister 0 T mcfg), 0) ∧
      (get (afterOp (freshSys u cfg) (.opRegister 0 T mcfg)) 0 (.ctype T) []).map Prod.fst =
        .ok (.inst 0 T []) ∧
      (get (afterOp (afterOp (freshSys u cfg) (.opRegister 0 T mcfg)) (.opGet 0 (.ctype T) []))
          0 (.ctype T) []).map Prod.fst = .ok (.inst 1 T []) ∧
      Value.inst 0 T [] ≠ Value.inst 1 T [] ∧
      (getNode (afterOp (afterOp (freshSys u cfg) (.opRegister 0 T mcfg)) (.opGet 0 (.ctype T) []))
          0).map (fun n => n.instanceCache) = some [] ∧
      (getNode (afterOp (afterOp (afterOp (freshSys u cfg) (.opRegister 0 T mcfg))
            (.opGet 0 (.ctype T) [])) (.opGet 0 (.ctype T) []))
          0).map (fun n => n.instanceCache) = some []) := by
  intro u cfg T hU hmax
  have hd0 : ¬(cfg.maxTreeDepth ≤ 0) := by omega
  constructor
  · cases htm : cfg.trackMetrics <;>
      simp [afterOp, get, getTypeF, resolveParams, getNode, freshSys, rootNode, cacheResolve,
        paramsOf, lookupReg, lookupRegAux, isMultiple, metricsUpdate, cacheWrite,
        setNode, updateRecord, depCount, ownerOf, Except.map, hU, hd0, htm]
  · intro mcfg hm
    obtain ⟨mtoks, mstrat, mity⟩ := mcfg
    simp only [] at hm
    subst hm
    cases hstrat : mstrat <;> cases htm : cfg.trackMetrics <;>
    · simp only [afterOp, register_fresh]
      simp [get, getTypeF, resolveParams, getNode, freshSys, rootNode, cacheResolve,
        paramsOf, lookupReg, lookupRegAux, isMultiple, metricsUpdate, cacheWrite,
        setNode, updateRecord, depCount, ownerOf, registerCore, regUpdate, Except.map,
        hU, hd0, htm]

/-- Witness for C1: type `5` with no dependencies on a fresh injector yields
instance `0` twice (the cached singleton). -/
theorem singleton_invariant_and_multiple_bypass_witness :
    (get (freshSys [(5, [])] { maxTreeDepth := 3, allowDuplicateTokens := false, trackMetrics := false })
        0 (.ctype 5) []).map Prod.fst = .ok (.inst 0 5 []) ∧
    (get (afterOp
          (freshSys [(5, [])] { maxTreeDepth := 3, allowDuplicateTokens := false, trackMetrics := false })
          (.opGet 0 (.ctype 5) [])) 0 (.ctype 5) []).map Prod.fst = .ok (.inst 0 5 []) :=
  (singleton_invariant_and_multiple_bypass [(5, [])]
    { maxTreeDepth := 3, allowDuplicateTokens := false, trackMetrics := false } 5 rfl
    (by decide)).1

/-! ## Claim C8 -/

/-- C8: the first metrics update for a type creates a record with
`resolutionCount = 1` and `activationTypeOwner` the supplied owner; each
subsequent update increments `resolutionCount` and refreshes
`lastResolution`; hence after three `get` calls the record shows
`resolutionCount = 3` with non-decreasing `lastResolution` values; with
`trackMetrics` off every update is a no-op and `getMetricsForType` stays
undefined. -/
theorem metrics_resolution_tracking :
    (∀ records t owner cost now deps, records.any (fun r => r.type == t) = false →
      updateRecord records t owner cost now deps =
        records ++ [MetricRecord.mk t now owner 1 now deps cost]) ∧
    (∀ records t owner cost now deps, records.any (fun r => r.type == t) = true →
      updateRecord records t owner cost now deps =
        records.map (fun r =>
          if r.type == t then
            { r with
              resolutionCount := r.resolutionCount + 1
              lastResolution := now
              creationTimeMs := cost }
          else r)) ∧
    (∀ s nid t owner cost node, getNode s nid = some node →
      node.config.trackMetrics = false → metricsUpdate s nid t owner cost = s) ∧
    (∀ u cfg T, lookupParams u T = some [] → 1 ≤ cfg.maxTreeDepth →
      cfg.trackMetrics = true →
      ∃ r1 r2 r3,
        getMetricsForType (afterOp (freshSys u cfg) (.opGet 0 (.ctype T) [])) 0 T = some r1 ∧
        getMetricsForType (afterOp (afterOp (freshSys u cfg) (.opGet 0 (.ctype T) []))
          (.opGet 0 (.ctype T) [])) 0 T = some r2 ∧
        getMetricsForType (afterOp (afterOp (afterOp (freshSys u cfg) (.opGet 0 (.ctype T) []))
          (.opGet 0 (.ctype T) [])) (.opGet 0 (.ctype T) [])) 0 T = some r3 ∧
        r1.resolutionCount = 1 ∧ r1.activationTypeOwner = T ∧
        r2.resolutionCount = 2 ∧ r3.resolutionCount = 3 ∧
        r1.lastResolution ≤ r2.lastResolution ∧ r2.lastResolution ≤ r3.lastResolution) ∧
    (∀ u cfg T, lookupParams u T = some [] → 1 ≤ cfg.maxTreeDepth →
      cfg.trackMetrics = false →
      getMetricsForType (afterOp (freshSys u cfg) (.opGet 0 (.ctype T) [])) 0 T = none ∧
      getMetricsForType (afterOp (afterOp (afterOp (freshSys u cfg) (.opGet 0 (.ctype T) []))
        (.opGet 0 (.ctype T) [])) (.opGet 0 (.ctype T) [])) 0 T = none) := by
  refine ⟨?_, ?_, ?_, ?_, ?_⟩
  · intro records t owner cost now deps h
    unfold updateRecord
    rw [h]
    simp
  · intro records t owner cost now deps h
    unfold updateRecord
    rw [h]
    simp
  · intro s nid t owner cost node h1 h2
    unfold metricsUpdate
    rw [h1]
    simp [h2]
  · intro u cfg T hU hmax htm
    have hd0 : ¬(cfg.maxTreeDepth ≤ 0) := by omega
    simp [afterOp, get, getTypeF, resolveParams, getNode, freshSys, rootNode, cacheResolve,
      paramsOf, lookupReg, lookupRegAux, isMultiple, metricsUpdate, cacheWrite,
      setNode, updateRecord, depCount, ownerOf, getMetricsForType, Except.map, hU, hd0, htm]
  · intro u cfg T hU hmax htm
    have hd0 : ¬(cfg.maxTreeDepth ≤ 0) := by omega
    simp [afterOp, get, getTypeF, resolveParams, getNode, freshSys, rootNode, cacheResolve,
      paramsOf, lookupReg, lookupRegAux, isMultiple, metricsUpdate, cacheWrite,
      setNode, updateRecord, depCount, ownerOf, getMetricsForType, Except.map, hU, hd0, htm]

/-- Witness for C8: three `get` calls for type `5` with metrics tracking on. -/
theorem metrics_resolution_tracking_witness :
    ∃ r1 r2 r3,
      getMetricsForType (afterOp
        (freshSys [(5, [])] { maxTreeDepth := 3, allowDuplicateTokens := false, trackMetrics := true })
        (.opGet 0 (.ctype 5) [])) 0 5 = some r1 ∧
      getMetricsForType (afterOp (afterOp
        (freshSys [(5, [])] { maxTreeDepth := 3, allowDuplicateTokens := false, trackMetrics := true })
        (.opGet 0 (.ctype 5) [])) (.opGet 0 (.ctype 5) [])) 0 5 = some r2 ∧
      getMetricsForType (afterOp (afterOp (afterOp
        (freshSys [(5, [])] { maxTreeDepth := 3, allowDuplicateTokens := false, trackMetrics := true })
        (.opGet 0 (.ctype 5) [])) (.opGet 0 (.ctype 5) [])) (.opGet 0 (.ctype 5) [])) 0 5 = some r3 ∧
      r1.resolutionCount = 1 ∧ r1.activationTypeOwner = 5 ∧
      r2.resolutionCount = 2 ∧ r3.resolutionCount = 3 ∧
      r1.lastResolution ≤ r2.lastResolution ∧ r2.lastResolution ≤ r3.lastResolution :=
  (metrics_resolution_tracking.2.2.2.1) [(5, [])]
    { maxTreeDepth := 3, allowDuplicateTokens := false, trackMetrics := true } 5 rfl
    (by decide) rfl

/-! ## Claim C2 -/

/-- C2: resolution fails with a circular-dependency error naming the cycle
path whenever the requested type already appears in the ancestry; for a
two-type cycle A→B→A with cycle length below `maxTreeDepth`, `get(A)` fails
with the circular-dependency error (so the cycle check fires before the depth
guard could). -/
theorem circular_dependency_detection :
    (∀ s nid node t ancestry opts fuel, getNode s nid = some node →
      node.destroyed = false → ancestry.length < node.config.maxTreeDepth →
      t ∈ ancestry →
      getTypeF (fuel + 1) s nid t ancestry opts =
        .error (.circularDependency (ancestry ++ [t]))) ∧
    (∀ u cfg A B, lookupParams u A = some [B] → lookupParams u B = some [A] →
      A ≠ B → 3 ≤ cfg.maxTreeDepth →
      get (freshSys u cfg) 0 (.ctype A) [] = .error (.circularDependency [A, B, A])) := by
  constructor
  · intro s nid node t ancestry opts fuel h1 h2 h3 h4
    have hd : ¬(node.config.maxTreeDepth ≤ ancestry.length) := by omega
    simp [getTypeF, h1, h2, hd, h4]
  · intro u cfg A B hU1 hU2 hAB hmax
    obtain ⟨m, hm⟩ : ∃ m, cfg.maxTreeDepth = m + 1 + 1 + 1 :=
      ⟨cfg.maxTreeDepth - 3, by omega⟩
    have hBA : ¬(B = A) := fun h => hAB h.symm
    simp [get, getTypeF, resolveParams, resolveParam, getNode, freshSys, rootNode,
      cacheResolve, paramsOf, TokenCache.bindingFor, lookupReg, lookupRegAux, isMultiple,
      List.getD, hU1, hU2, hAB, hBA, hm]

/-- Witness for C2: the cycle 1→2→1 with `maxTreeDepth = 10` is reported as a
circular dependency with the path `[1, 2, 1]`. -/
theorem circular_dependency_detection_witness :
    get (freshSys [(1, [2]), (2, [1])]
        { maxTreeDepth := 10, allowDuplicateTokens := false, trackMetrics := false })
      0 (.ctype 1) [] = .error (.circularDependency [1, 2, 1]) :=
  circular_dependency_detection.2 [(1, [2]), (2, [1])]
    { maxTreeDepth := 10, allowDuplicateTokens := false, trackMetrics := false } 1 2 rfl rfl
    (by decide) (by decide)

/-! ## Claim C9 -/

/-- C9: with type X registered as a singleton on parent P and two children
created via `createScope`, each child's `get(X)` constructs and caches its own
distinct instance in its own instance cache; neither call writes the parent's
or the sibling's cache; and both children fall back to P's registration table
for binding metadata while having no local registration. -/
theorem child_scope_isolation :
    ∀ u cfg X, lookupParams u X = some [] → 1 ≤ cfg.maxTreeDepth →
    let scfg := InjectionConfiguration.mk [] none .singleton
    let sP := afterOp (freshSys u cfg) (.opRegister 0 X scfg)
    let s1 := afterOp sP (.opCreateScope 0 none)
    let s2 := afterOp s1 (.opCreateScope 0 none)
    let s3 := afterOp s2 (.opGet 1 (.ctype X) [])
    let s4 := afterOp s3 (.opGet 2 (.ctype X) [])
    register (freshSys u cfg) 0 X scfg = .ok (sP, 0) ∧
    createScope sP 0 none = .ok (s1, 1) ∧
    createScope s1 0 none = .ok (s2, 2) ∧
    (getNode s2 1).map (fun n => n.registrations) = some [] ∧
    (getNode s2 2).map (fun n => n.registrations) = some [] ∧
    lookupReg s2 1 X = some scfg ∧
    lookupReg s2 2 X = some scfg ∧
    (get s2 1 (.ctype X) []).map Prod.fst = .ok (.inst 0 X []) ∧
    (get s3 2 (.ctype X) []).map Prod.fst = .ok (.inst 1 X []) ∧
    Value.inst 0 X [] ≠ Value.inst 1 X [] ∧
    (getNode s4 0).map (fun n => n.instanceCache) = some [] ∧
    (getNode s4 1).map (fun n => n.instanceCache) = some [(X, .inst 0 X [])] ∧
    (getNode s4 2).map (fun n => n.instanceCache) = some [(X, .inst 1 X [])] ∧
    (getNode s3 2).map (fun n => n.instanceCache) = some [] := by
  intro u cfg X hU hmax
  have hd0 : ¬(cfg.maxTreeDepth ≤ 0) := by omega
  cases htm : cfg.trackMetrics <;>
  · simp only [afterOp, register_fresh]
    simp [get, getTypeF, resolveParams, getNode, freshSys, rootNode, cacheResolve, paramsOf,
      lookupReg, lookupRegAux, isMultiple, metricsUpdate, cacheWrite, setNode, updateRecord,
      depCount, ownerOf, registerCore, regUpdate, createScope, Except.map, hU, hd0, htm]

/-- Witness for C9 at type `5` on a fresh system. -/
theorem child_scope_isolation_witness :
    let cfg : Configuration :=
      { maxTreeDepth := 3, allowDuplicateTokens := false, trackMetrics := false }
    let scfg := InjectionConfiguration.mk [] none .singleton
    let sP := afterOp (freshSys [(5, [])] cfg) (.opRegister 0 5 scfg)
    let s1 := afterOp sP (.opCreateScope 0 none)
    let s2 := afterOp s1 (.opCreateScope 0 none)
    let s3 := afterOp s2 (.opGet 1 (.ctype 5) [])
    let s4 := afterOp s3 (.opGet 2 (.ctype 5) [])
    (get s2 1 (.ctype 5) []).map Prod.fst = .ok (.inst 0 5 []) ∧
    (get s3 2 (.ctype 5) []).map Prod.fst = .ok (.inst 1 5 []) ∧
    (getNode s4 0).map (fun n => n.instanceCache) = some [] := by
  have h := child_scope_isolation [(5, [])]
    { maxTreeDepth := 3, allowDuplicateTokens := false, trackMetrics := false } 5 rfl
    (by decide)
  exact ⟨h.2.2.2.2.2.2.2.1, h.2.2.2.2.2.2.2.2.1, h.2.2.2.2.2.2.2.2.2.2.1⟩

/-! ## Claim C3 -/

/-- The declared constructor dependencies of position `i` in a strictly-nested
chain of `N` types `0 → 1 → ⋯ → N-1`: each type depends on its successor,
the last type on nothing. -/
def chainDeps (N i : Nat) : List CType :=
  if i + 1 < N then [i + 1] else []

/-- The type metadata of a chain of `N` strictly-nested dependencies. -/
def chainU (N : Nat) : List (CType × List CType) :=
  (List.range N).map (fun i => (i, chainDeps N i))

theorem find?_range_map (f : Nat → List CType) (N i : Nat) (h : i < N) :
    ((List.range N).map (fun j => (j, f j))).find? (fun p => p.1 == i) = some (i, f i) := by
  induction N with
  | zero => omega
  | succ N ih =>
    rw [List.range_succ, List.map_append, List.find?_append]
    by_cases hi : i < N
    · rw [ih hi]
      rfl
    · have hiN : i = N := by omega
      subst hiN
      have hnone : ((List.range i).map (fun j => (j, f j))).find? (fun p => p.1 == i) = none := by
        refine List.find?_eq_none.2 ?_
        intro p hp
        simp only [List.mem_map, List.mem_range] at hp
        obtain ⟨j, hj, rfl⟩ := hp
        simp
        omega
      rw [hnone]
      simp [List.find?]

theorem lookupParams_chainU {N i : Nat} (h : i < N) :
    lookupParams (chainU N) i = some (chainDeps N i) := by
  unfold lookupParams chainU
  rw [find?_range_map _ _ _ h]
  rfl

theorem getTypeF_zero (s : Sys) (nid : NodeId) (t : CType) (ancestry : List CType)
    (opts : List (Option Value)) : getTypeF 0 s nid t ancestry opts = .error .depthExceeded := by
  simp [getTypeF]

theorem getTypeF_step {s : Sys} {nid : NodeId} {node : Node} {t : CType}
    {ancestry : List CType} {opts : List (Option Value)} {ps : List CType} (fuel : Nat)
    (h1 : getNode s nid = some node) (h2 : node.destroyed = false)
    (h3 : ¬(node.config.maxTreeDepth ≤ ancestry.length)) (h4 : t ∉ ancestry)
    (h5 : cacheResolve node t = none) (h6 : paramsOf s t = some ps) :
    getTypeF (fuel + 1) s nid t ancestry opts =
      match resolveParams fuel s nid t ancestry opts ps 0 with
      | .error e => .error e
      | .ok (args, s1) =>
        .ok (Value.inst s1.nextInstanceId t args,
          metricsUpdate
            (if isMultiple { s1 with nextInstanceId := s1.nextInstanceId + 1 } nid t then
              { s1 with nextInstanceId := s1.nextInstanceId + 1 }
            else
              cacheWrite { s1 with nextInstanceId := s1.nextInstanceId + 1 } nid t
                (Value.inst s1.nextInstanceId t args))
            nid t (ownerOf ancestry t) 0) := by
  simp only [getTypeF, h1, h2, h5, h6, Bool.false_eq_true, if_false]
  rw [if_neg h3, if_neg h4]

theorem chain_resolveParam_bare (N : Nat) (cfg : Configuration) (fuel k : Nat) :
    resolveParam fuel (freshSys (chainU N) cfg) 0 k (List.range k) [] (k + 1) 0 =
      getTypeF fuel (freshSys (chainU N) cfg) 0 (k + 1) (List.range (k + 1)) [] := by
  simp only [resolveParam, List.getD, freshSys, TokenCache.bindingFor]
  rw [List.range_succ]
  rfl

theorem chain_get_succeeds (N : Nat) (cfg : Configuration) (hN : N ≤ cfg.maxTreeDepth) :
    ∀ j k fuel, k + j = N → 1 ≤ j → j ≤ fuel →
      ∃ v s', getTypeF fuel (freshSys (chainU N) cfg) 0 k (List.range k) [] = .ok (v, s') := by
  intro j
  induction j with
  | zero => omega
  | succ j ih =>
    intro k fuel hkj hj hfuel
    obtain ⟨f, rfl⟩ : ∃ f, fuel = f + 1 := ⟨fuel - 1, by omega⟩
    have hk : k < N := by omega
    have hd : ¬(cfg.maxTreeDepth ≤ (List.range k).length) := by
      simp
      omega
    have hmem : k ∉ List.range k := by simp
    have hps : paramsOf (freshSys (chainU N) cfg) k = some (chainDeps N k) := by
      show lookupParams (chainU N) k = some (chainDeps N k)
      exact lookupParams_chainU hk
    rw [getTypeF_step f (getNode_freshSys (chainU N) cfg) rfl hd hmem rfl hps]
    by_cases hlast : k + 1 < N
    · have hdeps : chainDeps N k = [k + 1] := by
        unfold chainDeps
        rw [if_pos hlast]
      rw [hdeps]
      simp only [resolveParams]
      rw [chain_resolveParam_bare]
      obtain ⟨v, s', hrec⟩ := ih (k + 1) f (by omega) (by omega) (by omega)
      rw [hrec]
      simp only [resolveParams]
      exact ⟨_, _, rfl⟩
    · have hdeps : chainDeps N k = [] := by
        unfold chainDeps
        rw [if_neg hlast]
      rw [hdeps]
      simp only [resolveParams]
      exact ⟨_, _, rfl⟩

theorem chain_get_depth_fails (N : Nat) (cfg : Configuration) (hN : cfg.maxTreeDepth < N) :
    ∀ d k fuel, cfg.maxTreeDepth ≤ k + d → k < N → cfg.maxTreeDepth + 1 ≤ fuel + k →
      getTypeF fuel (freshSys (chainU N) cfg) 0 k (List.range k) [] =
        .error .depthExceeded := by
  intro d
  induction d with
  | zero =>
    intro k fuel hd hk hf
    cases fuel with
    | zero => exact getTypeF_zero _ _ _ _ _
    | succ f =>
      have hlen : cfg.maxTreeDepth ≤ k := by omega
      simp [getTypeF, getNode_freshSys, rootNode, hlen]
  | succ d ih =>
    intro k fuel hd hk hf
    by_cases hdk : cfg.maxTreeDepth ≤ k
    · cases fuel with
      | zero => exact getTypeF_zero _ _ _ _ _
      | succ f =>
        simp [getTypeF, getNode_freshSys, rootNode, hdk]
    · have hkd : ¬(cfg.maxTreeDepth ≤ (List.range k).length) := by
        simp
        omega
      cases fuel with
      | zero => exact getTypeF_zero _ _ _ _ _
      | succ f =>
        have hmem : k ∉ List.range k := by simp
        have hk1 : k + 1 < N := by omega
        have hps : paramsOf (freshSys (chainU N) cfg) k = some (chainDeps N k) := by
          show lookupParams (chainU N) k = some (chainDeps N k)
          exact lookupParams_chainU hk
        rw [getTypeF_step f (getNode_freshSys (chainU N) cfg) rfl hkd hmem rfl hps]
        have hdeps : chainDeps N k = [k + 1] := by
          unfold chainDeps
          rw [if_pos hk1]
        rw [hdeps]
        simp only [resolveParams]
        rw [chain_resolveParam_bare]
        rw [ih (k + 1) f (by omega) hk1 (by omega)]

/-- C3: for an acyclic chain of `N` strictly-nested constructor dependencies,
`get` on the chain head succeeds when `N ≤ maxTreeDepth` and fails with a
depth-exceeded error when `N > maxTreeDepth`; the engine's guard raises the
depth-exceeded error exactly at the point where the ancestry length reaches
`maxTreeDepth`. -/
theorem depth_guard_on_chains :
    (∀ N cfg, 1 ≤ N → N ≤ cfg.maxTreeDepth →
      ∃ v s', get (freshSys (chainU N) cfg) 0 (.ctype 0) [] = .ok (v, s')) ∧
    (∀ N cfg, 1 ≤ N → cfg.maxTreeDepth < N →
      get (freshSys (chainU N) cfg) 0 (.ctype 0) [] = .error .depthExceeded) ∧
    (∀ s nid node t ancestry opts fuel, getNode s nid = some node →
      node.destroyed = false → node.config.maxTreeDepth ≤ ancestry.length →
      getTypeF (fuel + 1) s nid t ancestry opts = .error .depthExceeded) := by
  refine ⟨?_, ?_, ?_⟩
  · intro N cfg hN hND
    have h := chain_get_succeeds N cfg hND N 0 (cfg.maxTreeDepth + 1) (by omega) hN (by omega)
    unfold get
    rw [getNode_freshSys]
    simpa [rootNode] using h
  · intro N cfg hN hND
    have h := chain_get_depth_fails N cfg hND cfg.maxTreeDepth 0 (cfg.maxTreeDepth + 1)
      (by omega) (by omega) (by omega)
    unfold get
    rw [getNode_freshSys]
    simpa [rootNode] using h
  · intro s nid node t ancestry opts fuel h1 h2 h3
    simp [getTypeF, h1, h2, h3]

/-- Witness for C3: the chain `0 → 1 → 2` (three types) succeeds with
`maxTreeDepth = 3` and fails depth-exceeded with `maxTreeDepth = 2`. -/
theorem depth_guard_on_chains_witness :
    (∃ v s', get (freshSys (chainU 3)
        { maxTreeDepth := 3, allowDuplicateTokens := false, trackMetrics := false })
      0 (.ctype 0) [] = .ok (v, s')) ∧
    get (freshSys (chainU 3)
        { maxTreeDepth := 2, allowDuplicateTokens := false, trackMetrics := false })
      0 (.ctype 0) [] = .error .depthExceeded :=
  ⟨depth_guard_on_chains.1 3
      { maxTreeDepth := 3, allowDuplicateTokens := false, trackMetrics := false }
      (by decide) (by decide),
    depth_guard_on_chains.2.1 3
      { maxTreeDepth := 2, allowDuplicateTokens := false, trackMetrics := false }
      (by decide) (by decide)⟩

/-! ## Claim C6 -/

/-- Preservation of destroyed nodes between two states: every node that is
present and destroyed in `s` is still present and destroyed in `s'`. -/
def DPres (s s' : Sys) : Prop :=
  ∀ n node, getNode s n = some node → node.destroyed = true →
    ∃ node', getNode s' n = some node' ∧ node'.destroyed = true

theorem DPres.rfl (s : Sys) : DPres s s :=
  fun _ node h hd => ⟨node, h, hd⟩

theorem DPres.trans {s1 s2 s3 : Sys} (h12 : DPres s1 s2) (h23 : DPres s2 s3) :
    DPres s1 s3 := by
  intro n node h hd
  obtain ⟨node2, h2, hd2⟩ := h12 n node h hd
  exact h23 n node2 h2 hd2

theorem destroyed_after_setNode {s : Sys} {m : Node} {n : NodeId} {node : Node}
    (h : getNode s n = some node) (hd : node.destroyed = true)
    (hm : m.id = n → m.destroyed = true) :
    ∃ node', getNode (setNode s m) n = some node' ∧ node'.destroyed = true := by
  rw [getNode_setNode]
  by_cases hn : n = m.id
  · rw [if_pos hn, h]
    exact ⟨m, rfl, hm hn.symm⟩
  · rw [if_neg hn]
    exact ⟨node, h, hd⟩

theorem DPres_setNode_sameflag {s : Sys} {m : Node} (node0 : Node)
    (h0 : getNode s m.id = some node0) (hflag : m.destroyed = node0.destroyed) :
    DPres s (setNode s m) := by
  intro n node h hd
  refine destroyed_after_setNode h hd ?_
  intro hid
  rw [hid] at h0
  rw [h0] at h
  cases h
  rw [hflag]
  exact hd

theorem DPres_raise_setNode {s : Sys} {m : Node} (hm : m.destroyed = true) :
    DPres s (setNode s m) := by
  intro n node h hd
  exact destroyed_after_setNode h hd (fun _ => hm)

theorem getNode_clockSet (s : Sys) (c : Nat) (n : NodeId) :
    getNode { s with clock := c } n = getNode s n := rfl

theorem getNode_instIdSet (s : Sys) (k : Nat) (n : NodeId) :
    getNode { s with nextInstanceId := k } n = getNode s n := rfl

theorem getNode_tokenCacheSet (s : Sys) (tc : TokenCache) (n : NodeId) :
    getNode { s with tokenCache := tc } n = getNode s n := rfl

theorem DPres_setNode_update {s : Sys} {nid : NodeId} {node : Node}
    (hg : getNode s nid = some node) (m : Node) (hid : m.id = node.id)
    (hflag : m.destroyed = node.destroyed) : DPres s (setNode s m) :=
  DPres_setNode_sameflag node (by rw [hid, getNode_id hg]; exact hg) hflag

theorem DPres_metricsUpdate (s : Sys) (nid : NodeId) (t owner : CType) (cost : Nat) :
    DPres s (metricsUpdate s nid t owner cost) := by
  unfold metricsUpdate
  split
  · exact DPres.rfl s
  · split
    · rename_i node hg _
      intro n nd h hd
      obtain ⟨node', h', hd'⟩ := DPres_setNode_update hg
        { node with metrics := updateRecord node.metrics t owner cost s.clock (depCount s t) }
        rfl rfl n nd h hd
      exact ⟨node', h', hd'⟩
    · exact DPres.rfl s

theorem DPres_cacheWrite (s : Sys) (nid : NodeId) (t : CType) (v : Value) :
    DPres s (cacheWrite s nid t v) := by
  unfold cacheWrite
  split
  · exact DPres.rfl s
  · rename_i node hg
    exact DPres_setNode_sameflag node (by rw [getNode_id hg]; exact hg) rfl

theorem DPres_instIdSet (s : Sys) (k : Nat) : DPres s { s with nextInstanceId := k } :=
  fun _ node h hd => ⟨node, h, hd⟩

theorem DPres_registerCore (s : Sys) (node : Node) (t : CType) (cfg : InjectionConfiguration)
    (h : getNode s node.id = some node) : DPres s (registerCore s node t cfg) := by
  intro n nd hn hd
  have hset : DPres s (setNode s { node with registrations := regUpdate node.registrations t cfg }) :=
    DPres_setNode_sameflag node h rfl
  obtain ⟨node', h', hd'⟩ := hset n nd hn hd
  refine ⟨node', ?_, hd'⟩
  rw [getNode_registerCore, getNode_setNode] at *
  exact h'

/-- Destroyed-node preservation by the resolution engine at a given fuel. -/
def GetPres (fuel : Nat) : Prop :=
  ∀ s nid t anc opts v s', getTypeF fuel s nid t anc opts = .ok (v, s') → DPres s s'

theorem getStrategiesF_dpres (fuel : Nat) (hG : GetPres fuel) :
    ∀ us s nid anc vs s', getStrategiesF fuel s nid anc us = .ok (vs, s') → DPres s s' := by
  intro us
  induction us with
  | nil =>
    intro s nid anc vs s' h
    simp only [getStrategiesF, Except.ok.injEq, Prod.mk.injEq] at h
    rw [← h.2]
    exact DPres.rfl s
  | cons u us ih =>
    intro s nid anc vs s' h
    simp only [getStrategiesF] at h
    split at h
    · cases h
    · rename_i v1 s1 heq1
      split at h
      · cases h
      · rename_i vs2 s2 heq2
        cases h
        exact DPres.trans (hG _ _ _ _ _ _ _ heq1) (ih _ _ _ _ _ heq2)

theorem resolveParam_dpres (fuel : Nat) (hG : GetPres fuel) :
    ∀ s nid t anc opts p i v s', resolveParam fuel s nid t anc opts p i = .ok (v, s') →
      DPres s s' := by
  intro s nid t anc opts p i v s' h
  simp only [resolveParam] at h
  split at h
  · cases h
    exact DPres.rfl s
  · split at h
    · split at h
      · cases h
      · exact hG _ _ _ _ _ _ _ h
    · cases h
      exact DPres.rfl s
    · cases h
      exact DPres.rfl s
    · split at h
      · exact hG _ _ _ _ _ _ _ h
      · cases h
        exact DPres.rfl s
    · split at h
      · cases h
      · rename_i vs1 s1 heq
        cases h
        exact getStrategiesF_dpres fuel hG _ _ _ _ _ _ heq
    · exact hG _ _ _ _ _ _ _ h

theorem resolveParams_dpres (fuel : Nat) (hG : GetPres fuel) :
    ∀ ps s nid t anc opts i vs s', resolveParams fuel s nid t anc opts ps i = .ok (vs, s') →
      DPres s s' := by
  intro ps
  induction ps with
  | nil =>
    intro s nid t anc opts i vs s' h
    simp only [resolveParams, Except.ok.injEq, Prod.mk.injEq] at h
    rw [← h.2]
    exact DPres.rfl s
  | cons p ps ih =>
    intro s nid t anc opts i vs s' h
    simp only [resolveParams] at h
    split at h
    · cases h
    · rename_i v1 s1 heq1
      split at h
      · cases h
      · rename_i vs2 s2 heq2
        cases h
        exact DPres.trans (resolveParam_dpres fuel hG _ _ _ _ _ _ _ _ _ heq1)
          (ih _ _ _ _ _ _ _ _ heq2)

theorem getTypeF_dpres : ∀ fuel, GetPres fuel := by
  intro fuel
  induction fuel with
  | zero =>
    intro s nid t anc opts v s' h
    rw [getTypeF_zero] at h
    cases h
  | succ f ih =>
    intro s nid t anc opts v s' h
    simp only [getTypeF] at h
    split at h
    · cases h
    · rename_i node hg
      split at h
      · cases h
      · split at h
        · cases h
        · split at h
          · cases h
          · split at h
            · cases h
              exact DPres_metricsUpdate _ _ _ _ _
            · split at h
              · cases h
              · split at h
                · cases h
                · rename_i args s1 heq
                  cases h
                  refine DPres.trans (resolveParams_dpres f ih _ _ _ _ _ _ _ _ _ heq) ?_
                  refine DPres.trans (DPres_instIdSet s1 (s1.nextInstanceId + 1)) ?_
                  refine DPres.trans ?_ (DPres_metricsUpdate _ _ _ _ _)
                  split
                  · exact DPres.rfl _
                  · exact DPres_cacheWrite _ _ _ _

theorem destroyList_dpres (fuel : Nat)
    (hS : ∀ s nid, DPres s (destroySubtree fuel s nid)) :
    ∀ cs s, DPres s (destroyList fuel s cs) := by
  intro cs
  induction cs with
  | nil =>
    intro s
    simp only [destroyList]
    exact DPres.rfl s
  | cons c cs ih =>
    intro s
    simp only [destroyList]
    exact DPres.trans (hS s c) (ih _)

theorem destroySubtree_dpres : ∀ fuel s nid, DPres s (destroySubtree fuel s nid) := by
  intro fuel
  induction fuel with
  | zero =>
    intro s nid
    simp only [destroySubtree]
    exact DPres.rfl s
  | succ f ih =>
    intro s nid
    simp only [destroySubtree]
    split
    · exact DPres.rfl s
    · rename_i node hg
      refine DPres.trans (destroyList_dpres f ih node.children s) ?_
      split
      · exact DPres.rfl _
      · exact DPres_raise_setNode rfl

theorem DPres_removeChild (s : Sys) (p c : NodeId) : DPres s (removeChild s p c) := by
  unfold removeChild
  split
  · exact DPres.rfl s
  · rename_i p0 hg
    exact DPres_setNode_sameflag p0 (by rw [getNode_id hg]; exact hg) rfl

theorem getNode_nodes_append {s1 : Sys} {l : List Node} {c : Node} {n : NodeId} {node : Node}
    (hn : s1.nodes = l ++ [c]) (h : l.find? (fun x => x.id == n) = some node) :
    getNode s1 n = some node := by
  unfold getNode
  rw [hn, List.find?_append, h]
  rfl

/-- Once a node is destroyed, no public operation ever brings it back: after
any single operation the node is still destroyed. -/
theorem destroyed_permanent_afterOp :
    ∀ s op n node, getNode s n = some node → node.destroyed = true →
      isDestroyed (afterOp s op) n = true := by
  intro s op n node h hd
  have key : DPres s (afterOp s op) → isDestroyed (afterOp s op) n = true := by
    intro hp
    obtain ⟨node', h', hd'⟩ := hp n node h hd
    unfold isDestroyed
    rw [h']
    exact hd'
  apply key
  clear key h hd
  cases op with
  | opRegister nid t cfg =>
    simp only [afterOp]
    split
    · rename_i s1 n1 heq
      obtain ⟨node0, hg0, rfl⟩ := register_ok_state heq
      exact DPres_registerCore _ _ _ _ (by rw [getNode_id hg0]; exact hg0)
    · exact DPres.rfl s
  | opRegisterInstance nid t v cfg =>
    simp only [afterOp]
    split
    · rename_i s1 n1 heq
      unfold registerInstance at heq
      split at heq
      · cases heq
      · rename_i s2 n2 heq2
        cases heq
        obtain ⟨node0, hg0, rfl⟩ := register_ok_state heq2
        exact DPres.trans
          (DPres_registerCore _ _ _ _ (by rw [getNode_id hg0]; exact hg0))
          (DPres_cacheWrite _ _ _ _)
    · exact DPres.rfl s
  | opRegisterParam nid owner index b =>
    simp only [afterOp]
    split
    · rename_i s1 n1 heq
      unfold registerParam at heq
      split at heq
      · cases heq
      · split at heq
        · cases heq
        · cases heq
          intro m nd hm hdm
          exact ⟨nd, hm, hdm⟩
    · exact DPres.rfl s
  | opGet nid x opts =>
    simp only [afterOp]
    split
    · rename_i v1 s1 heq
      unfold get at heq
      split at heq
      · cases heq
      · split at heq
        · cases heq
        · split at heq
          · exact getTypeF_dpres _ _ _ _ _ _ _ _ heq
          · split at heq
            · cases heq
            · exact getTypeF_dpres _ _ _ _ _ _ _ _ heq
    · exact DPres.rfl s
  | opGetOptional nid t =>
    simp only [afterOp]
    split
    · rename_i v1 s1 heq
      unfold getOptional at heq
      split at heq
      · cases heq
      · split at heq
        · cases heq
        · split at heq
          · split at heq
            · cases heq
            · cases heq
              exact getTypeF_dpres _ _ _ _ _ _ _ _ (by assumption)
          · cases heq
            exact DPres.rfl s
    · exact DPres.rfl s
  | opCreateScope nid name =>
    simp only [afterOp]
    split
    · rename_i s1 n1 heq
      unfold createScope at heq
      split at heq
      · cases heq
      · split at heq
        · cases heq
        · rename_i node0 hg0 hnd
          cases heq
          intro m nd hm hdm
          obtain ⟨node', h', hd'⟩ := DPres_setNode_update hg0
            { node0 with children := node0.children ++ [s.nextNodeId] } rfl rfl m nd hm hdm
          exact ⟨node', getNode_nodes_append rfl h', hd'⟩
    · exact DPres.rfl s
  | opDestroy nid =>
    simp only [afterOp]
    split
    · rename_i s1 heq
      unfold destroy at heq
      split at heq
      · cases heq
      · split at heq
        · cases heq
        · rename_i node0 hg0
          split at heq
          · cases heq
            exact DPres.trans (destroySubtree_dpres _ _ _) (DPres_removeChild _ _ _)
          · cases heq
            exact destroySubtree_dpres _ _ _
    · exact DPres.rfl s
  | opReset nid =>
    simp only [afterOp]
    split
    · rename_i s1 heq
      unfold reset at heq
      split at heq
      · cases heq
      · split at heq
        · cases heq
        · rename_i node0 hg0 hnd
          cases heq
          exact DPres_setNode_update hg0
            { node0 with registrations := [], instanceCache := [], metrics := [] } rfl rfl
    · exact DPres.rfl s

/-- C6: the injector lifecycle is one-way: destroying a node marks it and all
its descendants destroyed, every subsequent `get` and mutating operation on
them fails with a lifecycle error, `getScope` from the root no longer reaches
the destroyed subtree by identifier or name, and no public operation ever
resets a destroyed node back to active. -/
theorem destroy_lifecycle_one_way :
    (∀ u cfg nm1 nm2,
      let s1 := afterOp (freshSys u cfg) (.opCreateScope 0 (some nm1))
      let s2 := afterOp s1 (.opCreateScope 1 (some nm2))
      let s3 := afterOp s2 (.opDestroy 1)
      createScope (freshSys u cfg) 0 (some nm1) = .ok (s1, 1) ∧
      createScope s1 1 (some nm2) = .ok (s2, 2) ∧
      destroy s2 1 = .ok s3 ∧
      isDestroyed s3 1 = true ∧
      isDestroyed s3 2 = true ∧
      (∀ x opts, get s3 1 x opts = .error .lifecycle) ∧
      (∀ x opts, get s3 2 x opts = .error .lifecycle) ∧
      (∀ t rcfg, register s3 1 t rcfg = .error .lifecycle) ∧
      (∀ t rcfg, register s3 2 t rcfg = .error .lifecycle) ∧
      (∀ k m, getScope s3 0 k = some m → m = 0)) ∧
    (∀ s op n node, getNode s n = some node → node.destroyed = true →
      isDestroyed (afterOp s op) n = true) := by
  constructor
  · intro u cfg nm1 nm2
    refine ⟨rfl, rfl, rfl, ?_, ?_, ?_, ?_, ?_, ?_, ?_⟩
    · simp [afterOp, destroy, destroySubtree, destroyList, removeChild, setNode, getNode,
        createScope, freshSys, rootNode, isDestroyed]
    · simp [afterOp, destroy, destroySubtree, destroyList, removeChild, setNode, getNode,
        createScope, freshSys, rootNode, isDestroyed]
    · intro x opts
      simp [afterOp, destroy, destroySubtree, destroyList, removeChild, setNode, getNode,
        createScope, freshSys, rootNode, get]
    · intro x opts
      simp [afterOp, destroy, destroySubtree, destroyList, removeChild, setNode, getNode,
        createScope, freshSys, rootNode, get]
    · intro t rcfg
      simp [afterOp, destroy, destroySubtree, destroyList, removeChild, setNode, getNode,
        createScope, freshSys, rootNode, register]
    · intro t rcfg
      simp [afterOp, destroy, destroySubtree, destroyList, removeChild, setNode, getNode,
        createScope, freshSys, rootNode, register]
    · intro k m hk
      cases k with
      | byId i =>
        by_cases hi : i = 0
        · subst hi
          simp [getScope, bfsOrder, keyMatchesId, keyMatchesName, afterOp, destroy,
            destroySubtree, destroyList, removeChild, setNode, getNode, createScope,
            freshSys, rootNode, List.find?] at hk
          exact hk.symm
        · simp [getScope, bfsOrder, keyMatchesId, keyMatchesName, afterOp, destroy,
            destroySubtree, destroyList, removeChild, setNode, getNode, createScope,
            freshSys, rootNode, List.find?, hi] at hk
      | byName nm =>
        simp [getScope, bfsOrder, keyMatchesId, keyMatchesName, afterOp, destroy,
          destroySubtree, destroyList, removeChild, setNode, getNode, createScope,
          freshSys, rootNode, List.find?] at hk
  · exact destroyed_permanent_afterOp

/-- Witness for C6: root, child (id 1, name "kid"), grandchild (id 2, name
"grand"); destroying the child destroys both, their `get` fails with the
lifecycle error, and `getScope` from the root finds neither. -/
theorem destroy_lifecycle_one_way_witness :
    let cfg : Configuration :=
      { maxTreeDepth := 3, allowDuplicateTokens := false, trackMetrics := false }
    let s1 := afterOp (freshSys [] cfg) (.opCreateScope 0 (some "kid"))
    let s2 := afterOp s1 (.opCreateScope 1 (some "grand"))
    let s3 := afterOp s2 (.opDestroy 1)
    isDestroyed s3 1 = true ∧
    isDestroyed s3 2 = true ∧
    get s3 1 (.ctype 5) [] = .error .lifecycle ∧
    get s3 2 (.ctype 5) [] = .error .lifecycle ∧
    (getScope s3 0 (.byName "kid") = some 1 → (1 : NodeId) = 0) ∧
    (getScope s3 0 (.byId 2) = some 2 → (2 : NodeId) = 0) := by
  have h := (destroy_lifecycle_one_way.1 []
    { maxTreeDepth := 3, allowDuplicateTokens := false, trackMetrics := false }
    "kid" "grand")
  exact ⟨h.2.2.2.1, h.2.2.2.2.1, h.2.2.2.2.2.1 (.ctype 5) [], h.2.2.2.2.2.2.1 (.ctype 5) [],
    h.2.2.2.2.2.2.2.2.2 (.byName "kid") 1, h.2.2.2.2.2.2.2.2.2 (.byId 2) 2⟩

end Needle
